import Mathlib

/-!
Verification of the scoring and round-progression engine of the
riichi-scoreboard application (source: src/src/App.tsx).

The engine is embedded shallowly: JS numbers that only ever hold integers
become Int, the four-seat point array becomes a function Fin 4 → Int,
string inputs for han/fu are parsed by a model of JS parseInt (radix 10),
and the React setState handlers become pure functions
GameState → inputs → Bool × GameState (the Bool is the handler's return
value; a false return leaves the state unchanged, mirroring the fact that
the source returns before calling setState).

Display-only fields that depend on the wall clock (HistoryEntry.id,
HistoryEntry.timestamp, the human-readable description built with
Intl.NumberFormat) are outside the model; every other field of every
record is embedded.
-/

namespace Riichi

/-- PLAYER_LABELS from App.tsx line 64. -/
def PLAYER_LABELS : List String := ["东风家", "南风家", "西风家", "北风家"]

/-- Label of seat i (PLAYER_LABELS[index]). -/
def playerLabel (i : Fin 4) : String := PLAYER_LABELS.getD i.val ""

/-- SettlementType from App.tsx line 70. -/
inductive SettlementType where
  | tsumo
  | ron
  | draw
deriving DecidableEq, Repr

/-- roundUpToHundred from App.tsx lines 209-211: Math.ceil(value / 100) * 100.
For an integer argument, Math.ceil of the real quotient is the floor
division of (value + 99) by 100. -/
def roundUpToHundred (value : Int) : Int :=
  ((value + 99).fdiv 100) * 100

/-- calcBasePoints from App.tsx lines 213-232.  The source computes
raw = fu * Math.pow(2, han + 2) before the kiriage test but only uses it
afterwards; for the han values that can reach that branch (han ≤ 4) the
exponent han + 2 is non-negative, matching the toNat below. -/
def calcBasePoints (han fu : Int) : Int :=
  if han ≥ 13 then 8000
  else if han ≥ 11 then 6000
  else if han ≥ 8 then 4000
  else if han ≥ 6 then 3000
  else if han ≥ 5 then 2000
  else
    let raw := fu * 2 ^ (han + 2).toNat
    if (han = 4 ∧ fu = 30) ∨ (han = 3 ∧ fu = 60) then 2000
    else if raw > 2000 then 2000
    else raw

/-- C2: calcBasePoints matches the tiered table evaluated top-down with the
kiriage-mangan tier before the min, and takes the four listed particular
values. -/
theorem calcBasePoints_spec :
    (∀ han fu : Int, 0 < han → 0 < fu →
      calcBasePoints han fu =
        if han ≥ 13 then 8000
        else if han ≥ 11 then 6000
        else if han ≥ 8 then 4000
        else if han ≥ 6 then 3000
        else if han ≥ 5 then 2000
        else if (han = 4 ∧ fu = 30) ∨ (han = 3 ∧ fu = 60) then 2000
        else min 2000 (fu * 2 ^ (han + 2).toNat))
    ∧ calcBasePoints 4 30 = 2000 ∧ calcBasePoints 3 60 = 2000
    ∧ calcBasePoints 13 20 = 8000 ∧ calcBasePoints 6 30 = 3000 := by
  refine ⟨fun han fu _ _ => ?_, by decide, by decide, by decide, by decide⟩
  unfold calcBasePoints
  split_ifs <;> simp_all [min_def] <;> omega

/-- Witness for the hypotheses of calcBasePoints_spec: the general tier
formula instantiated at han = 3, fu = 40 (base 1280). -/
theorem calcBasePoints_spec_witness :
    (0:Int) < 3 ∧ (0:Int) < 40 ∧ calcBasePoints 3 40 = 1280 := by
  refine ⟨by decide, by decide, ?_⟩
  have h := calcBasePoints_spec.1 3 40 (by decide) (by decide)
  rw [h]
  decide

/-! ## Model of the JS string-to-integer conversion used by the handlers

The source reads han/fu from text inputs and converts them with
parseInt(text or "0", 10), then rejects non-finite or non-positive
results.  parseInt with radix 10 skips leading whitespace, accepts an
optional sign, reads the maximal leading digit run, and yields NaN when
that run is empty.  NaN is modelled as none (Number.isFinite(NaN) is
false, so the none case is exactly the rejected non-finite case). -/

/-- Value of the maximal leading run of decimal digits; none when the run
is empty (the NaN case of parseInt). -/
def leadingDigitsVal (cs : List Char) : Option Nat :=
  let ds := cs.takeWhile (fun c => c.isDigit)
  if ds.isEmpty then none
  else some (ds.foldl (fun n c => n * 10 + (c.toNat - 48)) 0)

/-- Model of JS parseInt(s, 10): skip leading whitespace, then an
optional sign, then the maximal digit run. -/
def jsParseInt (s : String) : Option Int :=
  match s.toList.dropWhile (fun c => c.isWhitespace) with
  | '-' :: rest => (leadingDigitsVal rest).map (fun n => -(n : Int))
  | '+' :: rest => (leadingDigitsVal rest).map (fun n => (n : Int))
  | cs => (leadingDigitsVal cs).map (fun n => (n : Int))

/-- JS `s or-else dflt` on strings: the empty string is the only falsy
string, so it is replaced by the default. -/
def jsOrElse (s dflt : String) : String :=
  if s = "" then dflt else s

/-- True when parseInt(s or "0", 10) yields a finite positive value, i.e.
exactly when the source's han/fu validation passes for this field. -/
def parsesToPositive (s : String) : Bool :=
  match jsParseInt (jsOrElse s "0") with
  | some n => 0 < n
  | none => false

/-! ## Data model (App.tsx lines 66-170) -/

/-- HistoryEntry from App.tsx lines 72-86.  The clock-derived id and
timestamp and the Intl-formatted description string are display-only and
outside the model; deltas/playerNames/riichiPlayers are always written by
buildHistoryEntry in this codebase, so they are not optional here. -/
structure HistoryEntry where
  type : SettlementType
  roundLabel : String
  dealerLabel : String
  riichiCount : Nat
  playerNames : List String
  riichiPlayers : List String
  deltas : Fin 4 → Int

/-- CoreSnapshot from App.tsx lines 89-98. -/
structure CoreSnapshot where
  points : Fin 4 → Int
  kyotaku : Int
  honba : Int
  kyokuIndex : Int
  dealerIndex : Fin 4
  history : List HistoryEntry
  names : Fin 4 → String

/-- LastSettlementMeta from App.tsx lines 100-104 (timestamp is
clock-derived, outside the model). -/
structure LastSettlementMeta where
  type : SettlementType
  summary : String

/-- GameState from App.tsx lines 106-121. -/
structure GameState where
  points : Fin 4 → Int
  kyotaku : Int
  honba : Int
  kyokuIndex : Int
  dealerIndex : Fin 4
  history : List HistoryEntry
  names : Fin 4 → String
  lastSettlementBefore : Option CoreSnapshot
  lastSettlementAfter : Option CoreSnapshot
  lastSettlementMeta : Option LastSettlementMeta
  isInUndo : Bool

/-- createDefaultNames from App.tsx lines 123-125 (as a seat function). -/
def createDefaultNames : Fin 4 → String := playerLabel

/-- createInitialGameState from App.tsx lines 136-150. -/
def createInitialGameState : GameState where
  points := fun _ => 25000
  kyotaku := 0
  honba := 0
  kyokuIndex := 0
  dealerIndex := 0
  history := []
  names := createDefaultNames
  lastSettlementBefore := none
  lastSettlementAfter := none
  lastSettlementMeta := none
  isInUndo := false

/-- createCoreSnapshotFromState from App.tsx lines 152-170.  The source
copies the arrays; values are immutable here, so the copy is the value
itself. -/
def createCoreSnapshotFromState (source : GameState) : CoreSnapshot where
  points := source.points
  kyotaku := source.kyotaku
  honba := source.honba
  kyokuIndex := source.kyokuIndex
  dealerIndex := source.dealerIndex
  history := source.history
  names := source.names

/-- getRoundInfo from App.tsx lines 185-197. -/
def getRoundInfo (kyokuIndex honba : Int) : String × Int × String :=
  let wind : String := if kyokuIndex < 4 then "东" else "南"
  let number : Int := if kyokuIndex < 4 then kyokuIndex + 1 else kyokuIndex - 3
  let label := wind ++ toString number ++ "局" ++ toString honba ++ "本场"
  (wind, number, label)

/-- ensureSeatIndex from App.tsx lines 478-480, at the type at which the
settlement handlers use it (argument dealerIndex + 1, a natural number). -/
def ensureSeatIndex (value : Nat) : Fin 4 :=
  ⟨value % 4, Nat.mod_lt _ (by omega)⟩

/-- SettlementPreview from App.tsx lines 273-280. -/
structure SettlementPreview where
  deltas : Fin 4 → Int
  winnerIndex : Option (Fin 4)
  kyotakuBefore : Int
  kyotakuAfter : Int
  kyotakuIncome : Int
  riichiIncome : Int

/-! ## The settlement computations (App.tsx lines 285-476)

Each of the three preview functions and the corresponding confirm handler
contain one verbatim copy of the same delta computation in the source;
that computation is embedded once below (riichiPass plus the *Calc
functions) and referenced from both the preview and the handler.

JS arrays of four deltas are functions Fin 4 → Int; the array write
deltas[j] = v is the pointwise update upd. -/

/-- Pointwise array write: deltas with index j set to v. -/
def upd (d : Fin 4 → Int) (j : Fin 4) (v : Int) : Fin 4 → Int :=
  fun i => if i = j then v else d i

/-- The iteration order of forEach over a four-element array. -/
def seatList : List (Fin 4) := [0, 1, 2, 3]

/-- The riichi pass shared by all three settlement kinds (e.g. App.tsx
lines 303-309): for every seat whose riichi flag is set, subtract 1000
from its delta and record the seat.  Returns (deltas, riichiIndices). -/
def riichiPass (riichiFlags : Fin 4 → Bool) : (Fin 4 → Int) × List (Fin 4) :=
  seatList.foldl
    (fun acc idx =>
      if riichiFlags idx then (upd acc.1 idx (acc.1 idx - 1000), acc.2 ++ [idx])
      else acc)
    ((fun _ => 0), [])

/-- Intermediate results of a tsumo/ron settlement computation that both
the preview function and the confirm handler read. -/
structure SettleCalc where
  deltas : Fin 4 → Int
  riichiIndices : List (Fin 4)
  riichiIncome : Int
  kyotakuPoints : Int

/-- The tsumo delta computation (App.tsx lines 299-347, repeated verbatim
at lines 806-857): riichi pass, then the payment forEach loop over the
three non-winner seats accumulating (deltas, totalBaseFromOthers,
totalHonbaFromOthers), then the two winner credits. -/
def tsumoCalc (state : GameState) (winner : Fin 4) (han fu : Int)
    (riichiFlags : Fin 4 → Bool) : SettleCalc :=
  let basePoints := calcBasePoints han fu
  let rp := riichiPass riichiFlags
  let riichiIndices := rp.2
  let riichiCount := riichiIndices.length
  let riichiIncome : Int := (riichiCount : Int) * 1000
  let kyotakuPoints := state.kyotaku * 1000
  let winnerIsDealer := winner = state.dealerIndex
  let step :=
    if winnerIsDealer then
      -- dealer tsumo: the other three each pay 2x base + honba
      seatList.foldl
        (fun (acc : (Fin 4 → Int) × Int × Int) idx =>
          if idx = winner then acc
          else
            let rawBase := 2 * basePoints
            let basePay := roundUpToHundred rawBase
            let honbaPay := state.honba * 100
            let payment := basePay + honbaPay
            (upd acc.1 idx (acc.1 idx - payment), acc.2.1 + basePay,
              acc.2.2 + honbaPay))
        (rp.1, 0, 0)
    else
      -- non-dealer tsumo: dealer pays 2x base, the other two pay 1x base
      seatList.foldl
        (fun (acc : (Fin 4 → Int) × Int × Int) idx =>
          if idx = winner then acc
          else
            let isDealer := idx = state.dealerIndex
            let rawBase := basePoints * (if isDealer then 2 else 1)
            let basePay := roundUpToHundred rawBase
            let honbaPay := state.honba * 100
            let payment := basePay + honbaPay
            (upd acc.1 idx (acc.1 idx - payment), acc.2.1 + basePay,
              acc.2.2 + honbaPay))
        (rp.1, 0, 0)
  let totalBaseFromOthers := step.2.1
  let totalHonbaFromOthers := step.2.2
  let deltas1 := upd step.1 winner
    (step.1 winner + totalBaseFromOthers + totalHonbaFromOthers)
  let deltas2 := upd deltas1 winner
    (deltas1 winner + kyotakuPoints + riichiIncome)
  { deltas := deltas2, riichiIndices := riichiIndices,
    riichiIncome := riichiIncome, kyotakuPoints := kyotakuPoints }

/-- computeTsumoPreview from App.tsx lines 285-357. -/
def computeTsumoPreview (state : GameState) (winner : Option (Fin 4))
    (hanInput fuInput : String) (riichiFlags : Fin 4 → Bool) :
    Option SettlementPreview :=
  match winner with
  | none => none
  | some w =>
    match jsParseInt (jsOrElse hanInput "0"), jsParseInt (jsOrElse fuInput "0") with
    | some han, some fu =>
      if han ≤ 0 ∨ fu ≤ 0 then none
      else
        let c := tsumoCalc state w han fu riichiFlags
        some { deltas := c.deltas, winnerIndex := some w,
               kyotakuBefore := state.kyotaku, kyotakuAfter := 0,
               kyotakuIncome := c.kyotakuPoints, riichiIncome := c.riichiIncome }
    | _, _ => none

/-- The ron delta computation (App.tsx lines 377-401, repeated verbatim at
lines 963-990). -/
def ronCalc (state : GameState) (winner loser : Fin 4) (han fu : Int)
    (riichiFlags : Fin 4 → Bool) : SettleCalc :=
  let basePoints := calcBasePoints han fu
  let rp := riichiPass riichiFlags
  let riichiIndices := rp.2
  let riichiCount := riichiIndices.length
  let riichiIncome : Int := (riichiCount : Int) * 1000
  let kyotakuPoints := state.kyotaku * 1000
  let winnerIsDealer := winner = state.dealerIndex
  let multiplier : Int := if winnerIsDealer then 6 else 4
  let rawBase := multiplier * basePoints
  let basePay := roundUpToHundred rawBase
  let honbaPay := state.honba * 300
  let payment := basePay + honbaPay
  let deltas1 := upd rp.1 loser (rp.1 loser - payment)
  let deltas2 := upd deltas1 winner
    (deltas1 winner + (payment + kyotakuPoints + riichiIncome))
  { deltas := deltas2, riichiIndices := riichiIndices,
    riichiIncome := riichiIncome, kyotakuPoints := kyotakuPoints }

/-- computeRonPreview from App.tsx lines 362-411. -/
def computeRonPreview (state : GameState) (winner loser : Option (Fin 4))
    (hanInput fuInput : String) (riichiFlags : Fin 4 → Bool) :
    Option SettlementPreview :=
  match winner, loser with
  | some w, some l =>
    if w = l then none
    else
      match jsParseInt (jsOrElse hanInput "0"), jsParseInt (jsOrElse fuInput "0") with
      | some han, some fu =>
        if han ≤ 0 ∨ fu ≤ 0 then none
        else
          let c := ronCalc state w l han fu riichiFlags
          some { deltas := c.deltas, winnerIndex := some w,
                 kyotakuBefore := state.kyotaku, kyotakuAfter := 0,
                 kyotakuIncome := c.kyotakuPoints, riichiIncome := c.riichiIncome }
      | _, _ => none
  | _, _ => none

/-- The draw delta computation (App.tsx lines 421-466, repeated verbatim
at lines 1072-1119): riichi pass, then the tenpai-count transfer loops.
kyotakuPoints carries the new kyotaku value state.kyotaku + riichiCount.
The findIndex casts of the source are total here because the matching
branch guarantees a match exists. -/
def drawCalc (state : GameState) (tenpaiFlags riichiFlags : Fin 4 → Bool) :
    SettleCalc :=
  let rp := riichiPass riichiFlags
  let riichiIndices := rp.2
  let riichiCount := riichiIndices.length
  let riichiIncome : Int := (riichiCount : Int) * 1000
  let tenpaiCount := (seatList.filter (fun i => tenpaiFlags i)).length
  let deltas1 :=
    if tenpaiCount = 1 then
      match seatList.find? (fun i => tenpaiFlags i) with
      | some tenpaiIndex =>
        -- each other seat pays 1000 to the single tenpai seat
        seatList.foldl
          (fun d idx =>
            if idx = tenpaiIndex then d
            else
              let d' := upd d idx (d idx - 1000)
              upd d' tenpaiIndex (d' tenpaiIndex + 1000))
          rp.1
      | none => rp.1
    else if tenpaiCount = 2 then
      let tenpaiIndices := seatList.filter (fun i => tenpaiFlags i)
      let notTenpaiIndices := seatList.filter (fun i => ¬ tenpaiFlags i)
      let dA := notTenpaiIndices.foldl (fun d i => upd d i (d i - 1500)) rp.1
      tenpaiIndices.foldl (fun d i => upd d i (d i + 1500)) dA
    else if tenpaiCount = 3 then
      match seatList.find? (fun i => ¬ tenpaiFlags i) with
      | some notIndex =>
        -- the single noten seat pays 1000 to each other seat
        seatList.foldl
          (fun d idx =>
            if idx = notIndex then d
            else
              let d' := upd d notIndex (d notIndex - 1000)
              upd d' idx (d' idx + 1000))
          rp.1
      | none => rp.1
    else rp.1
  let newKyotaku := state.kyotaku + (riichiCount : Int)
  { deltas := deltas1, riichiIndices := riichiIndices,
    riichiIncome := riichiIncome, kyotakuPoints := newKyotaku }

/-- computeDrawPreview from App.tsx lines 416-476 (total: a draw preview
always exists). -/
def computeDrawPreview (state : GameState)
    (tenpaiFlags riichiFlags : Fin 4 → Bool) : SettlementPreview :=
  let c := drawCalc state tenpaiFlags riichiFlags
  { deltas := c.deltas, winnerIndex := none,
    kyotakuBefore := state.kyotaku, kyotakuAfter := c.kyotakuPoints,
    kyotakuIncome := 0, riichiIncome := c.riichiIncome }

/-- Number of riichi declarers among the four flags. -/
def riichiDeclarerCount (flags : Fin 4 → Bool) : Nat :=
  (seatList.filter (fun i => flags i)).length

/-! ## Characterizations of the loop-based computations -/

lemma riichiPass_fst (flags : Fin 4 → Bool) (i : Fin 4) :
    (riichiPass flags).1 i = if flags i then -1000 else 0 := by
  cases h0 : flags 0 <;> cases h1 : flags 1 <;> cases h2 : flags 2 <;>
    cases h3 : flags 3 <;> fin_cases i <;>
    simp [riichiPass, seatList, upd, h0, h1, h2, h3]

lemma riichiPass_snd (flags : Fin 4 → Bool) :
    (riichiPass flags).2 = seatList.filter (fun i => flags i) := by
  cases h0 : flags 0 <;> cases h1 : flags 1 <;> cases h2 : flags 2 <;>
    cases h3 : flags 3 <;>
    simp [riichiPass, seatList, upd, h0, h1, h2, h3]

lemma riichiPass_length (flags : Fin 4 → Bool) :
    (riichiPass flags).2.length = riichiDeclarerCount flags := by
  rw [riichiPass_snd]; rfl

lemma riichiPass_sum (flags : Fin 4 → Bool) :
    (riichiPass flags).1 0 + (riichiPass flags).1 1 + (riichiPass flags).1 2
      + (riichiPass flags).1 3
      = -(((riichiPass flags).2.length : Int) * 1000) := by
  cases h0 : flags 0 <;> cases h1 : flags 1 <;> cases h2 : flags 2 <;>
    cases h3 : flags 3 <;>
    simp [riichiPass, seatList, upd, h0, h1, h2, h3]

/-- Per-seat value of the tsumo delta computation. -/
lemma tsumoCalc_deltas (state : GameState) (w : Fin 4) (han fu : Int)
    (flags : Fin 4 → Bool) (i : Fin 4) :
    (tsumoCalc state w han fu flags).deltas i =
      (riichiPass flags).1 i +
      (if i = w then
        (if w = state.dealerIndex then
          3 * (roundUpToHundred (2 * calcBasePoints han fu) + state.honba * 100)
         else
          roundUpToHundred (calcBasePoints han fu * 2)
            + 2 * roundUpToHundred (calcBasePoints han fu * 1)
            + 3 * (state.honba * 100))
        + state.kyotaku * 1000 + ((riichiPass flags).2.length : Int) * 1000
      else
        -((if w = state.dealerIndex then roundUpToHundred (2 * calcBasePoints han fu)
           else if i = state.dealerIndex then roundUpToHundred (calcBasePoints han fu * 2)
           else roundUpToHundred (calcBasePoints han fu * 1))
          + state.honba * 100)) := by
  rcases state with ⟨pts, kyo, honba, kyoku, d, hist, nm, b, a, m, u⟩
  fin_cases w <;> fin_cases d <;> fin_cases i <;>
    simp [tsumoCalc, seatList, upd] <;> ring

/-- The four tsumo deltas sum to the claimed kyotaku (the riichi
deductions cancel against the winner's riichi income, the payments cancel
against the winner's payment income). -/
lemma tsumoCalc_sum (state : GameState) (w : Fin 4) (han fu : Int)
    (flags : Fin 4 → Bool) :
    ∑ i, (tsumoCalc state w han fu flags).deltas i = state.kyotaku * 1000 := by
  have hrp := riichiPass_sum flags
  rcases state with ⟨pts, kyo, honba, kyoku, d, hist, nm, b, a, m, u⟩
  fin_cases w <;> fin_cases d <;>
    (rw [Fin.sum_univ_four]
     simp only [tsumoCalc_deltas]
     simp
     linarith [hrp])

/-- Per-seat value of the ron delta computation (winner distinct from
loser, as every caller guarantees). -/
lemma ronCalc_deltas (state : GameState) (w l : Fin 4) (han fu : Int)
    (flags : Fin 4 → Bool) (hwl : w ≠ l) (i : Fin 4) :
    (ronCalc state w l han fu flags).deltas i =
      (riichiPass flags).1 i
      + (if i = l then
          -(roundUpToHundred ((if w = state.dealerIndex then 6 else 4)
              * calcBasePoints han fu) + state.honba * 300)
         else 0)
      + (if i = w then
          roundUpToHundred ((if w = state.dealerIndex then 6 else 4)
              * calcBasePoints han fu) + state.honba * 300
            + state.kyotaku * 1000 + ((riichiPass flags).2.length : Int) * 1000
         else 0) := by
  rcases state with ⟨pts, kyo, honba, kyoku, d, hist, nm, b, a, m, u⟩
  fin_cases w <;> fin_cases l <;> (try (exact absurd rfl hwl)) <;>
    fin_cases d <;> fin_cases i <;>
    simp [ronCalc, upd] <;> ring

/-- The four ron deltas sum to the claimed kyotaku. -/
lemma ronCalc_sum (state : GameState) (w l : Fin 4) (han fu : Int)
    (flags : Fin 4 → Bool) (hwl : w ≠ l) :
    ∑ i, (ronCalc state w l han fu flags).deltas i = state.kyotaku * 1000 := by
  have hrp := riichiPass_sum flags
  rw [Fin.sum_univ_four]
  simp only [ronCalc_deltas state w l han fu flags hwl]
  rcases state with ⟨pts, kyo, honba, kyoku, d, hist, nm, b, a, m, u⟩
  fin_cases w <;> fin_cases l <;> (try (exact absurd rfl hwl)) <;>
    simp <;> linarith [hrp]

/-- Per-seat value of the draw delta computation: the riichi deduction
plus the tenpai transfer determined by the tenpai count. -/
lemma drawCalc_deltas (state : GameState) (tenpai flags : Fin 4 → Bool)
    (i : Fin 4) :
    (drawCalc state tenpai flags).deltas i =
      (riichiPass flags).1 i +
      (if (seatList.filter (fun j => tenpai j)).length = 1 then
        (if tenpai i then 3000 else -1000)
       else if (seatList.filter (fun j => tenpai j)).length = 2 then
        (if tenpai i then 1500 else -1500)
       else if (seatList.filter (fun j => tenpai j)).length = 3 then
        (if tenpai i then 1000 else -3000)
       else 0) := by
  cases h0 : tenpai 0 <;> cases h1 : tenpai 1 <;> cases h2 : tenpai 2 <;>
    cases h3 : tenpai 3 <;> fin_cases i <;>
    simp [drawCalc, seatList, upd, h0, h1, h2, h3] <;> ring

/-- The four draw deltas sum to minus the riichi income: the tenpai
transfers cancel and only the declared sticks leave the stacks. -/
lemma drawCalc_sum (state : GameState) (tenpai flags : Fin 4 → Bool) :
    ∑ i, (drawCalc state tenpai flags).deltas i
      = -(((riichiPass flags).2.length : Int) * 1000) := by
  have hrp := riichiPass_sum flags
  rw [Fin.sum_univ_four]
  simp only [drawCalc_deltas]
  cases h0 : tenpai 0 <;> cases h1 : tenpai 1 <;> cases h2 : tenpai 2 <;>
    cases h3 : tenpai 3 <;>
    simp [seatList, h0, h1, h2, h3] <;> linarith [hrp]

lemma drawCalc_kyotaku (state : GameState) (tenpai flags : Fin 4 → Bool) :
    (drawCalc state tenpai flags).kyotakuPoints
      = state.kyotaku + (riichiDeclarerCount flags : Int) := by
  simp [drawCalc, riichiPass_length]

lemma drawCalc_income (state : GameState) (tenpai flags : Fin 4 → Bool) :
    (drawCalc state tenpai flags).riichiIncome
      = (riichiDeclarerCount flags : Int) * 1000 := by
  simp [drawCalc, riichiPass_length]

/-! ## The confirm handlers (App.tsx lines 791-1180)

Each handler is a pure function: the returned Bool is the source's return
value and the returned GameState is the state after the setState call (the
unchanged input state when the handler returns false before mutating). -/

/-- applyDeltas from App.tsx lines 721-723. -/
def applyDeltas (points deltas : Fin 4 → Int) : Fin 4 → Int :=
  fun i => points i + deltas i

/-- buildHistoryEntry from App.tsx lines 695-719 (clock-derived id and
timestamp and the formatted description are outside the model; the
handlers run synchronously, so the state it closes over is the state the
settlement is applied to). -/
def buildHistoryEntry (state : GameState) (type : SettlementType)
    (riichiCount : Nat) (riichiPlayers : List String)
    (deltas : Fin 4 → Int) : HistoryEntry where
  type := type
  roundLabel := (getRoundInfo state.kyokuIndex state.honba).2.2
  dealerLabel := state.names state.dealerIndex
  riichiCount := riichiCount
  playerNames := seatList.map state.names
  riichiPlayers := riichiPlayers
  deltas := deltas

/-- handleTsumoConfirm from App.tsx lines 791-944. -/
def handleTsumoConfirm (prev : GameState) (tsumoWinner : Option (Fin 4))
    (tsumoHan tsumoFu : String) (tsumoRiichi : Fin 4 → Bool) :
    Bool × GameState :=
  match tsumoWinner with
  | none => (false, prev)
  | some winner =>
    match jsParseInt (jsOrElse tsumoHan "0"), jsParseInt (jsOrElse tsumoFu "0") with
    | some han, some fu =>
      if han ≤ 0 ∨ fu ≤ 0 then (false, prev)
      else
        let beforeSnapshot := createCoreSnapshotFromState prev
        let winnerName := prev.names winner
        let c := tsumoCalc prev winner han fu tsumoRiichi
        let riichiPlayers := c.riichiIndices.map prev.names
        let newPoints := applyDeltas prev.points c.deltas
        let entry := buildHistoryEntry prev .tsumo c.riichiIndices.length
          riichiPlayers c.deltas
        -- dealer retention / rotation plus honba (lines 903-915)
        let winnerIsDealerNow := winner = prev.dealerIndex
        let nextDealer := if winnerIsDealerNow then prev.dealerIndex
          else ensureSeatIndex (prev.dealerIndex.val + 1)
        let nextHonba := if winnerIsDealerNow then prev.honba + 1 else 0
        let nextKyoku := if winnerIsDealerNow then prev.kyokuIndex
          else Int.tmod (prev.kyokuIndex + 1) 8
        let afterSnapshot : CoreSnapshot :=
          { points := newPoints, kyotaku := 0, honba := nextHonba,
            kyokuIndex := nextKyoku, dealerIndex := nextDealer,
            history := entry :: prev.history, names := prev.names }
        let meta : LastSettlementMeta :=
          { type := .tsumo, summary := winnerName ++ "自摸（" ++ entry.roundLabel ++ "）" }
        (true,
          { points := afterSnapshot.points, kyotaku := afterSnapshot.kyotaku,
            honba := afterSnapshot.honba, kyokuIndex := afterSnapshot.kyokuIndex,
            dealerIndex := afterSnapshot.dealerIndex,
            history := afterSnapshot.history, names := afterSnapshot.names,
            lastSettlementBefore := some beforeSnapshot,
            lastSettlementAfter := some afterSnapshot,
            lastSettlementMeta := some meta,
            isInUndo := false })
    | _, _ => (false, prev)

/-- handleRonConfirm from App.tsx lines 946-1064. -/
def handleRonConfirm (prev : GameState) (ronWinner ronLoser : Option (Fin 4))
    (ronHan ronFu : String) (ronRiichi : Fin 4 → Bool) : Bool × GameState :=
  match ronWinner, ronLoser with
  | some winner, some loser =>
    if winner = loser then (false, prev)
    else
      match jsParseInt (jsOrElse ronHan "0"), jsParseInt (jsOrElse ronFu "0") with
      | some han, some fu =>
        if han ≤ 0 ∨ fu ≤ 0 then (false, prev)
        else
          let beforeSnapshot := createCoreSnapshotFromState prev
          let c := ronCalc prev winner loser han fu ronRiichi
          let riichiPlayers := c.riichiIndices.map prev.names
          let newPoints := applyDeltas prev.points c.deltas
          let winnerName := prev.names winner
          let loserName := prev.names loser
          let entry := buildHistoryEntry prev .ron c.riichiIndices.length
            riichiPlayers c.deltas
          let winnerIsDealerNow := winner = prev.dealerIndex
          let nextDealer := if winnerIsDealerNow then prev.dealerIndex
            else ensureSeatIndex (prev.dealerIndex.val + 1)
          let nextHonba := if winnerIsDealerNow then prev.honba + 1 else 0
          let nextKyoku := if winnerIsDealerNow then prev.kyokuIndex
            else Int.tmod (prev.kyokuIndex + 1) 8
          let afterSnapshot : CoreSnapshot :=
            { points := newPoints, kyotaku := 0, honba := nextHonba,
              kyokuIndex := nextKyoku, dealerIndex := nextDealer,
              history := entry :: prev.history, names := prev.names }
          let meta : LastSettlementMeta :=
            { type := .ron,
              summary := winnerName ++ "荣和" ++ loserName ++ "（" ++ entry.roundLabel ++ "）" }
          (true,
            { points := afterSnapshot.points, kyotaku := afterSnapshot.kyotaku,
              honba := afterSnapshot.honba, kyokuIndex := afterSnapshot.kyokuIndex,
              dealerIndex := afterSnapshot.dealerIndex,
              history := afterSnapshot.history, names := afterSnapshot.names,
              lastSettlementBefore := some beforeSnapshot,
              lastSettlementAfter := some afterSnapshot,
              lastSettlementMeta := some meta,
              isInUndo := false })
      | _, _ => (false, prev)
  | _, _ => (false, prev)

/-- handleDrawConfirm from App.tsx lines 1066-1180 (never rejects). -/
def handleDrawConfirm (prev : GameState)
    (drawTenpai drawRiichi : Fin 4 → Bool) : Bool × GameState :=
  let beforeSnapshot := createCoreSnapshotFromState prev
  let c := drawCalc prev drawTenpai drawRiichi
  let riichiPlayers := c.riichiIndices.map prev.names
  let newPoints := applyDeltas prev.points c.deltas
  let newKyotaku := c.kyotakuPoints
  let entry := buildHistoryEntry prev .draw c.riichiIndices.length
    riichiPlayers c.deltas
  -- dealer keeps the seat exactly when the dealer seat is tenpai
  let dealerTenpai := drawTenpai prev.dealerIndex
  let nextDealer := if dealerTenpai then prev.dealerIndex
    else ensureSeatIndex (prev.dealerIndex.val + 1)
  let nextHonba := prev.honba + 1
  let nextKyoku := if dealerTenpai then prev.kyokuIndex
    else Int.tmod (prev.kyokuIndex + 1) 8
  let afterSnapshot : CoreSnapshot :=
    { points := newPoints, kyotaku := newKyotaku, honba := nextHonba,
      kyokuIndex := nextKyoku, dealerIndex := nextDealer,
      history := entry :: prev.history, names := prev.names }
  let meta : LastSettlementMeta :=
    { type := .draw, summary := "流局（" ++ entry.roundLabel ++ "）" }
  (true,
    { points := afterSnapshot.points, kyotaku := afterSnapshot.kyotaku,
      honba := afterSnapshot.honba, kyokuIndex := afterSnapshot.kyokuIndex,
      dealerIndex := afterSnapshot.dealerIndex,
      history := afterSnapshot.history, names := afterSnapshot.names,
      lastSettlementBefore := some beforeSnapshot,
      lastSettlementAfter := some afterSnapshot,
      lastSettlementMeta := some meta,
      isInUndo := false })

/-- handleUndoLastSettlement from App.tsx lines 736-760. -/
def handleUndoLastSettlement (prev : GameState) : GameState :=
  match prev.lastSettlementBefore, prev.lastSettlementAfter,
      prev.lastSettlementMeta with
  | some snapshot, some _, some _ =>
    { prev with
      points := snapshot.points, kyotaku := snapshot.kyotaku,
      honba := snapshot.honba, kyokuIndex := snapshot.kyokuIndex,
      dealerIndex := snapshot.dealerIndex, history := snapshot.history,
      names := snapshot.names, isInUndo := true }
  | _, _, _ => prev

/-- handleRedoLastSettlement from App.tsx lines 762-789. -/
def handleRedoLastSettlement (prev : GameState) : GameState :=
  match prev.lastSettlementBefore, prev.lastSettlementAfter,
      prev.lastSettlementMeta with
  | some _, some snapshot, some _ =>
    if prev.isInUndo then
      { prev with
        points := snapshot.points, kyotaku := snapshot.kyotaku,
        honba := snapshot.honba, kyokuIndex := snapshot.kyokuIndex,
        dealerIndex := snapshot.dealerIndex, history := snapshot.history,
        names := snapshot.names, isInUndo := false }
    else prev
  | _, _, _ => prev

/-! ## Settlement steps and reachability -/

/-- One confirmed settlement: a successful run of one of the three
confirm handlers with arbitrary inputs. -/
inductive SettleStep : GameState → GameState → Prop where
  | tsumo (prev : GameState) (w : Option (Fin 4)) (hs fs : String)
      (flags : Fin 4 → Bool) (s' : GameState) :
      handleTsumoConfirm prev w hs fs flags = (true, s') → SettleStep prev s'
  | ron (prev : GameState) (w l : Option (Fin 4)) (hs fs : String)
      (flags : Fin 4 → Bool) (s' : GameState) :
      handleRonConfirm prev w l hs fs flags = (true, s') → SettleStep prev s'
  | draw (prev : GameState) (tenpai flags : Fin 4 → Bool) (s' : GameState) :
      handleDrawConfirm prev tenpai flags = (true, s') → SettleStep prev s'

/-- States reachable from the initial state by a finite sequence of
confirmed settlements. -/
def ReachableState (s : GameState) : Prop :=
  Relation.ReflTransGen SettleStep createInitialGameState s

/-- Sum of the four stacks (the totalPoints reduce at App.tsx line 590). -/
def totalPoints (s : GameState) : Int :=
  seatList.foldl (fun sum i => sum + s.points i) 0

lemma totalPoints_eq_sum (s : GameState) : totalPoints s = ∑ i, s.points i := by
  rw [Fin.sum_univ_four]
  simp [totalPoints, seatList]

/-! ## Inversion of successful handler runs -/

/-- What a successful tsumo confirmation did, field by field. -/
lemma handleTsumoConfirm_true (prev : GameState) (w : Fin 4) (hs fs : String)
    (flags : Fin 4 → Bool) (s' : GameState)
    (h : handleTsumoConfirm prev (some w) hs fs flags = (true, s')) :
    ∃ han fu, jsParseInt (jsOrElse hs "0") = some han
      ∧ jsParseInt (jsOrElse fs "0") = some fu ∧ 0 < han ∧ 0 < fu
      ∧ s'.points = applyDeltas prev.points (tsumoCalc prev w han fu flags).deltas
      ∧ s'.kyotaku = 0
      ∧ s'.honba = (if w = prev.dealerIndex then prev.honba + 1 else 0)
      ∧ s'.kyokuIndex = (if w = prev.dealerIndex then prev.kyokuIndex
          else Int.tmod (prev.kyokuIndex + 1) 8)
      ∧ s'.dealerIndex = (if w = prev.dealerIndex then prev.dealerIndex
          else ensureSeatIndex (prev.dealerIndex.val + 1))
      ∧ s'.names = prev.names
      ∧ s'.lastSettlementBefore = some (createCoreSnapshotFromState prev)
      ∧ s'.lastSettlementAfter = some (createCoreSnapshotFromState s')
      ∧ (∃ m, s'.lastSettlementMeta = some m)
      ∧ s'.isInUndo = false := by
  unfold handleTsumoConfirm at h
  cases hh : jsParseInt (jsOrElse hs "0") with
  | none => rw [hh] at h; simp at h
  | some han =>
    cases hf : jsParseInt (jsOrElse fs "0") with
    | none => rw [hh, hf] at h; simp at h
    | some fu =>
      rw [hh, hf] at h
      simp only at h
      split at h
      · simp at h
      · rename_i hle
        injection h with h1 h2
        subst h2
        refine ⟨han, fu, rfl, rfl, by omega, by omega,
          rfl, rfl, ?_, ?_, ?_, rfl, rfl, rfl, ⟨_, rfl⟩, rfl⟩ <;>
          by_cases hw : w = prev.dealerIndex <;> simp [hw]

/-- What a successful ron confirmation did, field by field. -/
lemma handleRonConfirm_true (prev : GameState) (w l : Fin 4) (hs fs : String)
    (flags : Fin 4 → Bool) (s' : GameState)
    (h : handleRonConfirm prev (some w) (some l) hs fs flags = (true, s')) :
    ∃ han fu, w ≠ l ∧ jsParseInt (jsOrElse hs "0") = some han
      ∧ jsParseInt (jsOrElse fs "0") = some fu ∧ 0 < han ∧ 0 < fu
      ∧ s'.points = applyDeltas prev.points (ronCalc prev w l han fu flags).deltas
      ∧ s'.kyotaku = 0
      ∧ s'.honba = (if w = prev.dealerIndex then prev.honba + 1 else 0)
      ∧ s'.kyokuIndex = (if w = prev.dealerIndex then prev.kyokuIndex
          else Int.tmod (prev.kyokuIndex + 1) 8)
      ∧ s'.dealerIndex = (if w = prev.dealerIndex then prev.dealerIndex
          else ensureSeatIndex (prev.dealerIndex.val + 1))
      ∧ s'.names = prev.names
      ∧ s'.lastSettlementBefore = some (createCoreSnapshotFromState prev)
      ∧ s'.lastSettlementAfter = some (createCoreSnapshotFromState s')
      ∧ (∃ m, s'.lastSettlementMeta = some m)
      ∧ s'.isInUndo = false := by
  unfold handleRonConfirm at h
  simp only at h
  by_cases hwl : w = l
  · rw [if_pos hwl] at h; simp at h
  · rw [if_neg hwl] at h
    cases hh : jsParseInt (jsOrElse hs "0") with
    | none => rw [hh] at h; simp at h
    | some han =>
      cases hf : jsParseInt (jsOrElse fs "0") with
      | none => rw [hh, hf] at h; simp at h
      | some fu =>
        rw [hh, hf] at h
        simp only at h
        split at h
        · simp at h
        · rename_i hle
          injection h with h1 h2
          subst h2
          refine ⟨han, fu, hwl, rfl, rfl, by omega, by omega,
            rfl, rfl, ?_, ?_, ?_, rfl, rfl, rfl, ⟨_, rfl⟩, rfl⟩ <;>
            by_cases hw : w = prev.dealerIndex <;> simp [hw]

/-- What a draw confirmation (which always succeeds) did, field by field. -/
lemma handleDrawConfirm_eq (prev : GameState) (tenpai flags : Fin 4 → Bool)
    (s' : GameState) (h : handleDrawConfirm prev tenpai flags = (true, s')) :
    s'.points = applyDeltas prev.points (drawCalc prev tenpai flags).deltas
      ∧ s'.kyotaku = prev.kyotaku + (riichiDeclarerCount flags : Int)
      ∧ s'.honba = prev.honba + 1
      ∧ s'.kyokuIndex = (if tenpai prev.dealerIndex then prev.kyokuIndex
          else Int.tmod (prev.kyokuIndex + 1) 8)
      ∧ s'.dealerIndex = (if tenpai prev.dealerIndex then prev.dealerIndex
          else ensureSeatIndex (prev.dealerIndex.val + 1))
      ∧ s'.names = prev.names
      ∧ s'.lastSettlementBefore = some (createCoreSnapshotFromState prev)
      ∧ s'.lastSettlementAfter = some (createCoreSnapshotFromState s')
      ∧ (∃ m, s'.lastSettlementMeta = some m)
      ∧ s'.isInUndo = false := by
  unfold handleDrawConfirm at h
  injection h with h1 h2
  subst h2
  refine ⟨rfl, ?_, rfl, ?_, ?_, rfl, rfl, rfl, ⟨_, rfl⟩, rfl⟩
  · exact drawCalc_kyotaku prev tenpai flags
  · by_cases ht : tenpai prev.dealerIndex <;> simp [ht]
  · by_cases ht : tenpai prev.dealerIndex <;> simp [ht]

/-! ## Main claim theorems about the settlement previews -/

/-- C3: in a tsumo preview with positive parsed han/fu, every riichi
declarer's delta includes -1000; a dealer winner collects
roundUpToHundred(2*base) + honba*100 from each of the three others, a
non-dealer winner collects that amount from the dealer and
roundUpToHundred(base) + honba*100 from each other non-dealer; the winner
additionally receives all payments plus kyotaku*1000 plus 1000 per riichi
declarer, and the reported kyotaku-after is 0. -/
theorem tsumo_preview_spec (state : GameState) (w : Fin 4) (hs fs : String)
    (flags : Fin 4 → Bool) (han fu : Int) (p : SettlementPreview)
    (hh : jsParseInt (jsOrElse hs "0") = some han) (hhp : 0 < han)
    (hf : jsParseInt (jsOrElse fs "0") = some fu) (hfp : 0 < fu)
    (hp : computeTsumoPreview state (some w) hs fs flags = some p) :
    (∀ i, i ≠ w → p.deltas i =
      (if flags i then -1000 else 0)
      - ((if w = state.dealerIndex then roundUpToHundred (2 * calcBasePoints han fu)
          else if i = state.dealerIndex then roundUpToHundred (2 * calcBasePoints han fu)
          else roundUpToHundred (calcBasePoints han fu))
         + state.honba * 100))
    ∧ p.deltas w =
      (if flags w then -1000 else 0)
      + (if w = state.dealerIndex then
          3 * (roundUpToHundred (2 * calcBasePoints han fu) + state.honba * 100)
         else roundUpToHundred (2 * calcBasePoints han fu)
           + 2 * roundUpToHundred (calcBasePoints han fu)
           + 3 * (state.honba * 100))
      + state.kyotaku * 1000 + (riichiDeclarerCount flags : Int) * 1000
    ∧ p.kyotakuAfter = 0 := by
  unfold computeTsumoPreview at hp
  rw [hh, hf] at hp
  simp only at hp
  rw [if_neg (by omega : ¬(han ≤ 0 ∨ fu ≤ 0))] at hp
  injection hp with hp
  subst hp
  have e1 : calcBasePoints han fu * 2 = 2 * calcBasePoints han fu := by ring
  have e2 : calcBasePoints han fu * 1 = calcBasePoints han fu := by ring
  refine ⟨fun i hiw => ?_, ?_, rfl⟩
  · have hd := tsumoCalc_deltas state w han fu flags i
    rw [riichiPass_fst, riichiPass_length, e1, e2] at hd
    show (tsumoCalc state w han fu flags).deltas i = _
    rw [hd, if_neg hiw]
    ring
  · have hd := tsumoCalc_deltas state w han fu flags w
    rw [riichiPass_fst, riichiPass_length, e1, e2] at hd
    show (tsumoCalc state w han fu flags).deltas w = _
    rw [hd, if_pos rfl]
    ring

/-- Witness for tsumo_preview_spec: the spec-listed concrete case — a
dealer tsumo at 3 han 40 fu with no honba, no kyotaku and no riichi costs
each non-dealer 2600 and gains the winner 7800. -/
theorem tsumo_preview_spec_witness :
    (computeTsumoPreview createInitialGameState (some 0) "3" "40"
        (fun _ => false)).map
      (fun p => (p.deltas 0, p.deltas 1, p.deltas 2, p.deltas 3, p.kyotakuAfter))
      = some (7800, -2600, -2600, -2600, 0) := by
  obtain ⟨p, hp⟩ : ∃ p, computeTsumoPreview createInitialGameState (some 0)
      "3" "40" (fun _ => false) = some p := ⟨_, rfl⟩
  have h := tsumo_preview_spec createInitialGameState 0 "3" "40"
    (fun _ => false) 3 40 p (by decide) (by decide) (by decide) (by decide) hp
  have h1 : p.deltas 1 = -2600 := by rw [h.1 1 (by decide)]; decide
  have h2 : p.deltas 2 = -2600 := by rw [h.1 2 (by decide)]; decide
  have h3 : p.deltas 3 = -2600 := by rw [h.1 3 (by decide)]; decide
  have h0 : p.deltas 0 = 7800 := by rw [h.2.1]; decide
  rw [hp]
  simp [h0, h1, h2, h3, h.2.2]

/-- C4: in a ron preview with positive parsed han/fu and distinct winner
and loser, the payment is roundUpToHundred(multiplier*base) + honba*300
with multiplier 6 for a dealer winner and 4 otherwise; the loser pays it,
the winner receives it plus kyotaku*1000 plus 1000 per riichi declarer,
the two uninvolved seats carry only their riichi deduction, and the
reported kyotaku-after is 0. -/
theorem ron_preview_spec (state : GameState) (w l : Fin 4) (hs fs : String)
    (flags : Fin 4 → Bool) (han fu : Int) (p : SettlementPreview)
    (hwl : w ≠ l)
    (hh : jsParseInt (jsOrElse hs "0") = some han) (hhp : 0 < han)
    (hf : jsParseInt (jsOrElse fs "0") = some fu) (hfp : 0 < fu)
    (hp : computeRonPreview state (some w) (some l) hs fs flags = some p) :
    p.deltas l = (if flags l then -1000 else 0)
      - (roundUpToHundred ((if w = state.dealerIndex then 6 else 4)
          * calcBasePoints han fu) + state.honba * 300)
    ∧ p.deltas w = (if flags w then -1000 else 0)
      + (roundUpToHundred ((if w = state.dealerIndex then 6 else 4)
          * calcBasePoints han fu) + state.honba * 300)
      + state.kyotaku * 1000 + (riichiDeclarerCount flags : Int) * 1000
    ∧ (∀ i, i ≠ w → i ≠ l → p.deltas i = (if flags i then -1000 else 0))
    ∧ p.kyotakuAfter = 0 := by
  unfold computeRonPreview at hp
  simp only at hp
  rw [if_neg hwl, hh, hf] at hp
  simp only at hp
  rw [if_neg (by omega : ¬(han ≤ 0 ∨ fu ≤ 0))] at hp
  injection hp with hp
  subst hp
  refine ⟨?_, ?_, fun i hiw hil => ?_, rfl⟩
  · have hd := ronCalc_deltas state w l han fu flags hwl l
    rw [riichiPass_fst, riichiPass_length] at hd
    show (ronCalc state w l han fu flags).deltas l = _
    rw [hd, if_pos rfl, if_neg (Ne.symm hwl)]
    ring
  · have hd := ronCalc_deltas state w l han fu flags hwl w
    rw [riichiPass_fst, riichiPass_length] at hd
    show (ronCalc state w l han fu flags).deltas w = _
    rw [hd, if_neg hwl, if_pos rfl]
    ring
  · have hd := ronCalc_deltas state w l han fu flags hwl i
    rw [riichiPass_fst, riichiPass_length] at hd
    show (ronCalc state w l han fu flags).deltas i = _
    rw [hd, if_neg hil, if_neg hiw]
    ring

/-- Witness for ron_preview_spec: at 3 han 40 fu, no honba, the payment
is 5200 for a non-dealer winner and 7700 for a dealer winner. -/
theorem ron_preview_spec_witness :
    (computeRonPreview createInitialGameState (some 1) (some 0) "3" "40"
        (fun _ => false)).map (fun p => (p.deltas 0, p.deltas 1))
      = some (-5200, 5200)
    ∧ (computeRonPreview createInitialGameState (some 0) (some 1) "3" "40"
        (fun _ => false)).map (fun p => (p.deltas 1, p.deltas 0))
      = some (-7700, 7700) := by
  constructor
  · obtain ⟨p, hp⟩ : ∃ p, computeRonPreview createInitialGameState (some 1)
        (some 0) "3" "40" (fun _ => false) = some p := ⟨_, rfl⟩
    have h := ron_preview_spec createInitialGameState 1 0 "3" "40"
      (fun _ => false) 3 40 p (by decide) (by decide) (by decide) (by decide)
      (by decide) hp
    have h0 : p.deltas 0 = -5200 := by rw [h.1]; decide
    have h1 : p.deltas 1 = 5200 := by rw [h.2.1]; decide
    rw [hp]
    simp [h0, h1]
  · obtain ⟨p, hp⟩ : ∃ p, computeRonPreview createInitialGameState (some 0)
        (some 1) "3" "40" (fun _ => false) = some p := ⟨_, rfl⟩
    have h := ron_preview_spec createInitialGameState 0 1 "3" "40"
      (fun _ => false) 3 40 p (by decide) (by decide) (by decide) (by decide)
      (by decide) hp
    have h1 : p.deltas 1 = -7700 := by rw [h.1]; decide
    have h0 : p.deltas 0 = 7700 := by rw [h.2.1]; decide
    rw [hp]
    simp [h0, h1]

/-- C5: a draw preview always exists (computeDrawPreview is total) and,
on top of the -1000 riichi deduction, applies the tenpai transfer
determined by the tenpai count (tenpai +3000 and noten -1000 for one
tenpai seat, +1500 and -1500 for two, +1000 and -3000 for three, nothing
for zero or four);
the kyotaku-after is the kyotaku-before plus the riichi-declarer count,
the kyotaku-income field is 0, and no seat's delta includes kyotaku or
riichi-stick income. -/
theorem draw_preview_spec (state : GameState) (tenpai riichi : Fin 4 → Bool) :
    (∀ i, (computeDrawPreview state tenpai riichi).deltas i =
      (if riichi i then -1000 else 0) +
      (if (seatList.filter (fun j => tenpai j)).length = 1 then
        (if tenpai i then 3000 else -1000)
       else if (seatList.filter (fun j => tenpai j)).length = 2 then
        (if tenpai i then 1500 else -1500)
       else if (seatList.filter (fun j => tenpai j)).length = 3 then
        (if tenpai i then 1000 else -3000)
       else 0))
    ∧ (computeDrawPreview state tenpai riichi).kyotakuBefore = state.kyotaku
    ∧ (computeDrawPreview state tenpai riichi).kyotakuAfter
        = state.kyotaku + (riichiDeclarerCount riichi : Int)
    ∧ (computeDrawPreview state tenpai riichi).kyotakuIncome = 0
    ∧ (computeDrawPreview state tenpai riichi).riichiIncome
        = (riichiDeclarerCount riichi : Int) * 1000 := by
  refine ⟨fun i => ?_, rfl, ?_, rfl, ?_⟩
  · have hd := drawCalc_deltas state tenpai riichi i
    rw [riichiPass_fst] at hd
    exact hd
  · exact drawCalc_kyotaku state tenpai riichi
  · exact drawCalc_income state tenpai riichi

/-- C6: after a confirmed settlement, a dealer win keeps dealer and round
and adds a honba; a non-dealer win rotates the dealer (mod 4), advances
the round (mod 8, the JS remainder) and resets honba; a draw always adds
a honba and rotates dealer/round exactly when the dealer seat was not
tenpai.  The round index wraps 7 to 0. -/
theorem round_progression_spec :
    (∀ (prev : GameState) (w : Fin 4) (hs fs : String) (flags : Fin 4 → Bool)
        (s' : GameState),
      handleTsumoConfirm prev (some w) hs fs flags = (true, s') →
      (w = prev.dealerIndex →
        s'.dealerIndex = prev.dealerIndex ∧ s'.honba = prev.honba + 1
          ∧ s'.kyokuIndex = prev.kyokuIndex) ∧
      (w ≠ prev.dealerIndex →
        s'.dealerIndex = ensureSeatIndex (prev.dealerIndex.val + 1)
          ∧ s'.honba = 0
          ∧ s'.kyokuIndex = Int.tmod (prev.kyokuIndex + 1) 8))
    ∧ (∀ (prev : GameState) (w l : Fin 4) (hs fs : String)
        (flags : Fin 4 → Bool) (s' : GameState),
      handleRonConfirm prev (some w) (some l) hs fs flags = (true, s') →
      (w = prev.dealerIndex →
        s'.dealerIndex = prev.dealerIndex ∧ s'.honba = prev.honba + 1
          ∧ s'.kyokuIndex = prev.kyokuIndex) ∧
      (w ≠ prev.dealerIndex →
        s'.dealerIndex = ensureSeatIndex (prev.dealerIndex.val + 1)
          ∧ s'.honba = 0
          ∧ s'.kyokuIndex = Int.tmod (prev.kyokuIndex + 1) 8))
    ∧ (∀ (prev : GameState) (tenpai flags : Fin 4 → Bool) (s' : GameState),
      handleDrawConfirm prev tenpai flags = (true, s') →
      s'.honba = prev.honba + 1 ∧
      (tenpai prev.dealerIndex = true →
        s'.dealerIndex = prev.dealerIndex ∧ s'.kyokuIndex = prev.kyokuIndex) ∧
      (tenpai prev.dealerIndex = false →
        s'.dealerIndex = ensureSeatIndex (prev.dealerIndex.val + 1)
          ∧ s'.kyokuIndex = Int.tmod (prev.kyokuIndex + 1) 8))
    ∧ Int.tmod (7 + 1) 8 = 0 := by
  refine ⟨?_, ?_, ?_, by decide⟩
  · intro prev w hs fs flags s' h
    obtain ⟨han, fu, _, _, _, _, _, _, hhon, hkyk, hdl, _⟩ :=
      handleTsumoConfirm_true prev w hs fs flags s' h
    constructor
    · intro hw
      rw [hdl, hkyk, hhon, if_pos hw, if_pos hw, if_pos hw]
      exact ⟨rfl, rfl, rfl⟩
    · intro hw
      rw [hdl, hkyk, hhon, if_neg hw, if_neg hw, if_neg hw]
      exact ⟨rfl, rfl, rfl⟩
  · intro prev w l hs fs flags s' h
    obtain ⟨han, fu, _, _, _, _, _, _, _, hhon, hkyk, hdl, _⟩ :=
      handleRonConfirm_true prev w l hs fs flags s' h
    constructor
    · intro hw
      rw [hdl, hkyk, hhon, if_pos hw, if_pos hw, if_pos hw]
      exact ⟨rfl, rfl, rfl⟩
    · intro hw
      rw [hdl, hkyk, hhon, if_neg hw, if_neg hw, if_neg hw]
      exact ⟨rfl, rfl, rfl⟩
  · intro prev tenpai flags s' h
    obtain ⟨_, _, hhon, hkyk, hdl, _⟩ :=
      handleDrawConfirm_eq prev tenpai flags s' h
    refine ⟨hhon, ?_, ?_⟩
    · intro ht
      rw [hdl, hkyk, if_pos ht, if_pos ht]
      exact ⟨rfl, rfl⟩
    · intro ht
      rw [hdl, hkyk, if_neg (by simp [ht]), if_neg (by simp [ht])]
      exact ⟨rfl, rfl⟩

/-- Witness for round_progression_spec: a non-dealer ron from round index
7 wraps the round to 0, rotates the dealer and resets honba. -/
theorem round_progression_spec_witness :
    ((handleRonConfirm
        { createInitialGameState with kyokuIndex := 7, dealerIndex := 3, honba := 2 }
        (some 1) (some 0) "3" "40" (fun _ => false)).2.kyokuIndex,
     (handleRonConfirm
        { createInitialGameState with kyokuIndex := 7, dealerIndex := 3, honba := 2 }
        (some 1) (some 0) "3" "40" (fun _ => false)).2.dealerIndex,
     (handleRonConfirm
        { createInitialGameState with kyokuIndex := 7, dealerIndex := 3, honba := 2 }
        (some 1) (some 0) "3" "40" (fun _ => false)).2.honba)
    = (0, 0, 0) := by
  obtain ⟨s', hs'⟩ : ∃ s', handleRonConfirm
      { createInitialGameState with kyokuIndex := 7, dealerIndex := 3, honba := 2 }
      (some 1) (some 0) "3" "40" (fun _ => false) = (true, s') := ⟨_, rfl⟩
  have h := (round_progression_spec.2.1 _ 1 0 "3" "40" (fun _ => false) s' hs').2
    (by decide)
  rw [hs']
  rw [h.1, h.2.1, h.2.2]
  decide

/-- A han/fu field whose validation fails parses to no positive value. -/
lemma parsesToPositive_eq_false {s : String} {n : Int}
    (hh : jsParseInt (jsOrElse s "0") = some n)
    (hb : parsesToPositive s = false) : n ≤ 0 := by
  unfold parsesToPositive at hb
  rw [hh] at hb
  simp at hb
  omega

/-- C9: the tsumo handler returns false with the state untouched whenever
the winner is unspecified or han/fu do not parse to positive values, and
the ron handler does the same when winner or loser is unspecified, winner
equals loser, or han/fu are invalid — rejection happens before any
mutation. -/
theorem reject_before_mutation :
    (∀ (prev : GameState) (hs fs : String) (flags : Fin 4 → Bool),
      handleTsumoConfirm prev none hs fs flags = (false, prev))
    ∧ (∀ (prev : GameState) (w : Option (Fin 4)) (hs fs : String)
        (flags : Fin 4 → Bool),
      parsesToPositive hs = false ∨ parsesToPositive fs = false →
      handleTsumoConfirm prev w hs fs flags = (false, prev))
    ∧ (∀ (prev : GameState) (l : Option (Fin 4)) (hs fs : String)
        (flags : Fin 4 → Bool),
      handleRonConfirm prev none l hs fs flags = (false, prev))
    ∧ (∀ (prev : GameState) (w : Option (Fin 4)) (hs fs : String)
        (flags : Fin 4 → Bool),
      handleRonConfirm prev w none hs fs flags = (false, prev))
    ∧ (∀ (prev : GameState) (w : Fin 4) (hs fs : String)
        (flags : Fin 4 → Bool),
      handleRonConfirm prev (some w) (some w) hs fs flags = (false, prev))
    ∧ (∀ (prev : GameState) (w l : Option (Fin 4)) (hs fs : String)
        (flags : Fin 4 → Bool),
      parsesToPositive hs = false ∨ parsesToPositive fs = false →
      handleRonConfirm prev w l hs fs flags = (false, prev)) := by
  refine ⟨fun prev hs fs flags => rfl, ?_, ?_, ?_, ?_, ?_⟩
  · intro prev w hs fs flags hbad
    cases w with
    | none => rfl
    | some w =>
      cases hh : jsParseInt (jsOrElse hs "0") with
      | none => simp [handleTsumoConfirm, hh]
      | some han =>
        cases hf : jsParseInt (jsOrElse fs "0") with
        | none => simp [handleTsumoConfirm, hh, hf]
        | some fu =>
          have hle : han ≤ 0 ∨ fu ≤ 0 := by
            rcases hbad with hb | hb
            · exact Or.inl (parsesToPositive_eq_false hh hb)
            · exact Or.inr (parsesToPositive_eq_false hf hb)
          simp only [handleTsumoConfirm, hh, hf]
          rw [if_pos hle]
  · intro prev l hs fs flags
    cases l <;> rfl
  · intro prev w hs fs flags
    cases w <;> rfl
  · intro prev w hs fs flags
    simp [handleRonConfirm]
  · intro prev w l hs fs flags hbad
    cases w with
    | none => cases l <;> rfl
    | some w =>
      cases l with
      | none => rfl
      | some l =>
        by_cases hwl : w = l
        · subst hwl; simp [handleRonConfirm]
        · cases hh : jsParseInt (jsOrElse hs "0") with
          | none => simp [handleRonConfirm, hwl, hh]
          | some han =>
            cases hf : jsParseInt (jsOrElse fs "0") with
            | none => simp [handleRonConfirm, hwl, hh, hf]
            | some fu =>
              have hle : han ≤ 0 ∨ fu ≤ 0 := by
                rcases hbad with hb | hb
                · exact Or.inl (parsesToPositive_eq_false hh hb)
                · exact Or.inr (parsesToPositive_eq_false hf hb)
              simp only [handleRonConfirm, hh, hf]
              rw [if_neg hwl, if_pos hle]

/-- Witness for reject_before_mutation: a zero-han tsumo and a
winner-equals-loser ron are both rejected with no state change. -/
theorem reject_before_mutation_witness :
    handleTsumoConfirm createInitialGameState (some 0) "0" "40"
        (fun _ => false) = (false, createInitialGameState)
    ∧ handleRonConfirm createInitialGameState (some 2) (some 2) "3" "40"
        (fun _ => false) = (false, createInitialGameState) :=
  ⟨reject_before_mutation.2.1 createInitialGameState (some 0) "0" "40"
      (fun _ => false) (Or.inl (by decide)),
   reject_before_mutation.2.2.2.2.1 createInitialGameState 2 "3" "40"
      (fun _ => false)⟩

/-- C7: for each outcome kind the preview and the confirm handler agree:
a preview exists exactly when the handler accepts, and on acceptance the
handler applies exactly the preview's deltas to the points and installs
exactly the preview's kyotaku-after (the draw handler always accepts). -/
theorem preview_matches_applied :
    (∀ (prev : GameState) (w : Option (Fin 4)) (hs fs : String)
        (flags : Fin 4 → Bool),
      (computeTsumoPreview prev w hs fs flags = none
        ↔ (handleTsumoConfirm prev w hs fs flags).1 = false)
      ∧ ∀ p, computeTsumoPreview prev w hs fs flags = some p →
          (handleTsumoConfirm prev w hs fs flags).2.points
              = applyDeltas prev.points p.deltas
            ∧ (handleTsumoConfirm prev w hs fs flags).2.kyotaku
              = p.kyotakuAfter)
    ∧ (∀ (prev : GameState) (w l : Option (Fin 4)) (hs fs : String)
        (flags : Fin 4 → Bool),
      (computeRonPreview prev w l hs fs flags = none
        ↔ (handleRonConfirm prev w l hs fs flags).1 = false)
      ∧ ∀ p, computeRonPreview prev w l hs fs flags = some p →
          (handleRonConfirm prev w l hs fs flags).2.points
              = applyDeltas prev.points p.deltas
            ∧ (handleRonConfirm prev w l hs fs flags).2.kyotaku
              = p.kyotakuAfter)
    ∧ (∀ (prev : GameState) (tenpai flags : Fin 4 → Bool),
      (handleDrawConfirm prev tenpai flags).1 = true
      ∧ (handleDrawConfirm prev tenpai flags).2.points
          = applyDeltas prev.points (computeDrawPreview prev tenpai flags).deltas
      ∧ (handleDrawConfirm prev tenpai flags).2.kyotaku
          = (computeDrawPreview prev tenpai flags).kyotakuAfter) := by
  refine ⟨?_, ?_, fun prev tenpai flags => ⟨rfl, rfl, rfl⟩⟩
  · intro prev w hs fs flags
    cases w with
    | none =>
      exact ⟨by simp [computeTsumoPreview, handleTsumoConfirm],
        fun p hp => by simp [computeTsumoPreview] at hp⟩
    | some w =>
      cases hh : jsParseInt (jsOrElse hs "0") with
      | none =>
        exact ⟨by simp [computeTsumoPreview, handleTsumoConfirm, hh],
          fun p hp => by simp [computeTsumoPreview, hh] at hp⟩
      | some han =>
        cases hf : jsParseInt (jsOrElse fs "0") with
        | none =>
          exact ⟨by simp [computeTsumoPreview, handleTsumoConfirm, hh, hf],
            fun p hp => by simp [computeTsumoPreview, hh, hf] at hp⟩
        | some fu =>
          by_cases hv : han ≤ 0 ∨ fu ≤ 0
          · exact ⟨by simp [computeTsumoPreview, handleTsumoConfirm, hh, hf, hv],
              fun p hp => by simp [computeTsumoPreview, hh, hf, hv] at hp⟩
          · refine ⟨by simp [computeTsumoPreview, handleTsumoConfirm, hh, hf, hv], ?_⟩
            intro p hp
            unfold computeTsumoPreview at hp
            rw [hh, hf] at hp
            simp only at hp
            rw [if_neg hv] at hp
            injection hp with hp
            subst hp
            simp only [handleTsumoConfirm, hh, hf]
            rw [if_neg hv]
            exact ⟨rfl, rfl⟩
  · intro prev w l hs fs flags
    cases w with
    | none =>
      cases l with
      | none =>
        exact ⟨by simp [computeRonPreview, handleRonConfirm],
          fun p hp => by simp [computeRonPreview] at hp⟩
      | some l =>
        exact ⟨by simp [computeRonPreview, handleRonConfirm],
          fun p hp => by simp [computeRonPreview] at hp⟩
    | some w =>
      cases l with
      | none =>
        exact ⟨by simp [computeRonPreview, handleRonConfirm],
          fun p hp => by simp [computeRonPreview] at hp⟩
      | some l =>
        by_cases hwl : w = l
        · subst hwl
          exact ⟨by simp [computeRonPreview, handleRonConfirm],
            fun p hp => by simp [computeRonPreview] at hp⟩
        · cases hh : jsParseInt (jsOrElse hs "0") with
          | none =>
            exact ⟨by simp [computeRonPreview, handleRonConfirm, hwl, hh],
              fun p hp => by simp [computeRonPreview, hwl, hh] at hp⟩
          | some han =>
            cases hf : jsParseInt (jsOrElse fs "0") with
            | none =>
              exact ⟨by simp [computeRonPreview, handleRonConfirm, hwl, hh, hf],
                fun p hp => by simp [computeRonPreview, hwl, hh, hf] at hp⟩
            | some fu =>
              by_cases hv : han ≤ 0 ∨ fu ≤ 0
              · exact ⟨by simp [computeRonPreview, handleRonConfirm, hwl, hh, hf, hv],
                  fun p hp => by simp [computeRonPreview, hwl, hh, hf, hv] at hp⟩
              · refine ⟨by simp [computeRonPreview, handleRonConfirm, hwl, hh, hf, hv], ?_⟩
                intro p hp
                unfold computeRonPreview at hp
                simp only at hp
                rw [if_neg hwl, hh, hf] at hp
                simp only at hp
                rw [if_neg hv] at hp
                injection hp with hp
                subst hp
                simp only [handleRonConfirm]
                rw [if_neg hwl, hh, hf]
                simp only
                rw [if_neg hv]
                exact ⟨rfl, rfl⟩

/-- Witness for preview_matches_applied: confirming the previewed tsumo
installs the previewed kyotaku, and a draw with one riichi declarer
installs kyotaku 1 as previewed. -/
theorem preview_matches_applied_witness :
    (handleTsumoConfirm createInitialGameState (some 0) "3" "40"
        (fun _ => false)).2.kyotaku = 0
    ∧ (handleDrawConfirm createInitialGameState (fun _ => false)
        (fun i => i = 1)).2.kyotaku = 1 := by
  constructor
  · obtain ⟨p, hp⟩ : ∃ p, computeTsumoPreview createInitialGameState (some 0)
        "3" "40" (fun _ => false) = some p := ⟨_, rfl⟩
    have h := (preview_matches_applied.1 createInitialGameState (some 0)
      "3" "40" (fun _ => false)).2 p hp
    have hval : (computeTsumoPreview createInitialGameState (some 0) "3" "40"
        (fun _ => false)).map (fun q => q.kyotakuAfter) = some 0 := by decide
    rw [hp] at hval
    simp at hval
    rw [h.2, hval]
  · have h := (preview_matches_applied.2.2 createInitialGameState
      (fun _ => false) (fun i => i = 1)).2.2
    rw [h]
    decide

/-! ## C1: conservation of points plus kyotaku -/

/-- Every confirmed settlement preserves points plus staked sticks. -/
lemma settleStep_total (s s' : GameState) (h : SettleStep s s') :
    totalPoints s' + s'.kyotaku * 1000 = totalPoints s + s.kyotaku * 1000 := by
  cases h with
  | tsumo w hs fs flags s2 hh =>
    cases w with
    | none => simp [handleTsumoConfirm] at hh
    | some w =>
      obtain ⟨han, fu, -, -, -, -, hpts, hky, -, -, -, -, -, -, -, -⟩ :=
        handleTsumoConfirm_true _ w hs fs flags _ hh
      rw [totalPoints_eq_sum, totalPoints_eq_sum, hpts, hky]
      simp only [applyDeltas]
      rw [Finset.sum_add_distrib, tsumoCalc_sum]
      ring
  | ron w l hs fs flags s2 hh =>
    cases w with
    | none => cases l <;> simp [handleRonConfirm] at hh
    | some w =>
      cases l with
      | none => simp [handleRonConfirm] at hh
      | some l =>
        obtain ⟨han, fu, hwl, -, -, -, -, hpts, hky, -, -, -, -, -, -, -, -⟩ :=
          handleRonConfirm_true _ w l hs fs flags _ hh
        rw [totalPoints_eq_sum, totalPoints_eq_sum, hpts, hky]
        simp only [applyDeltas]
        rw [Finset.sum_add_distrib, ronCalc_sum _ _ _ _ _ _ hwl]
        ring
  | draw tenpai flags s2 hh =>
    obtain ⟨hpts, hky, -⟩ := handleDrawConfirm_eq _ tenpai flags _ hh
    rw [totalPoints_eq_sum, totalPoints_eq_sum, hpts, hky]
    simp only [applyDeltas]
    rw [Finset.sum_add_distrib, drawCalc_sum, riichiPass_length]
    unfold riichiDeclarerCount
    ring

/-- C1: every state reachable from the initial state by confirmed
settlements satisfies sum(points) + kyotaku*1000 = 100000. -/
theorem points_kyotaku_invariant (s : GameState) (h : ReachableState s) :
    totalPoints s + s.kyotaku * 1000 = 100000 := by
  unfold ReachableState at h
  induction h with
  | refl => decide
  | tail _ hstep ih => rw [settleStep_total _ _ hstep]; exact ih

/-- Witness for points_kyotaku_invariant: the invariant holds at the
(reachable) initial state. -/
theorem points_kyotaku_invariant_witness :
    totalPoints createInitialGameState
      + createInitialGameState.kyotaku * 1000 = 100000 :=
  points_kyotaku_invariant createInitialGameState Relation.ReflTransGen.refl

/-! ## C8: undo and redo -/

lemma undo_eq (s : GameState) (b a : CoreSnapshot) (m : LastSettlementMeta)
    (hb : s.lastSettlementBefore = some b) (ha : s.lastSettlementAfter = some a)
    (hm : s.lastSettlementMeta = some m) :
    handleUndoLastSettlement s =
      { s with
        points := b.points, kyotaku := b.kyotaku, honba := b.honba,
        kyokuIndex := b.kyokuIndex, dealerIndex := b.dealerIndex,
        history := b.history, names := b.names, isInUndo := true } := by
  unfold handleUndoLastSettlement
  rw [hb, ha, hm]

lemma redo_eq (s : GameState) (b a : CoreSnapshot) (m : LastSettlementMeta)
    (hb : s.lastSettlementBefore = some b) (ha : s.lastSettlementAfter = some a)
    (hm : s.lastSettlementMeta = some m) (hu : s.isInUndo = true) :
    handleRedoLastSettlement s =
      { s with
        points := a.points, kyotaku := a.kyotaku, honba := a.honba,
        kyokuIndex := a.kyokuIndex, dealerIndex := a.dealerIndex,
        history := a.history, names := a.names, isInUndo := false } := by
  unfold handleRedoLastSettlement
  rw [hb, ha, hm, hu]
  rfl

/-- Undo followed by redo restores the after-snapshot wholesale. -/
lemma redo_undo (s : GameState) (b a : CoreSnapshot) (m : LastSettlementMeta)
    (hb : s.lastSettlementBefore = some b) (ha : s.lastSettlementAfter = some a)
    (hm : s.lastSettlementMeta = some m) :
    handleRedoLastSettlement (handleUndoLastSettlement s) =
      { s with
        points := a.points, kyotaku := a.kyotaku, honba := a.honba,
        kyokuIndex := a.kyokuIndex, dealerIndex := a.dealerIndex,
        history := a.history, names := a.names, isInUndo := false } := by
  rw [undo_eq s b a m hb ha hm]
  exact redo_eq _ b a m hb ha hm rfl

/-- Every confirmed settlement leaves the undo pair describing exactly
the transition it made. -/
lemma settleStep_facts (s s' : GameState) (h : SettleStep s s') :
    s'.lastSettlementBefore = some (createCoreSnapshotFromState s)
    ∧ s'.lastSettlementAfter = some (createCoreSnapshotFromState s')
    ∧ (∃ m, s'.lastSettlementMeta = some m)
    ∧ s'.isInUndo = false := by
  cases h with
  | tsumo w hs fs flags s2 hh =>
    cases w with
    | none => simp [handleTsumoConfirm] at hh
    | some w =>
      obtain ⟨han, fu, -, -, -, -, -, -, -, -, -, -, hb, ha, hm, hu⟩ :=
        handleTsumoConfirm_true _ w hs fs flags _ hh
      exact ⟨hb, ha, hm, hu⟩
  | ron w l hs fs flags s2 hh =>
    cases w with
    | none => cases l <;> simp [handleRonConfirm] at hh
    | some w =>
      cases l with
      | none => simp [handleRonConfirm] at hh
      | some l =>
        obtain ⟨han, fu, -, -, -, -, -, -, -, -, -, -, -, hb, ha, hm, hu⟩ :=
          handleRonConfirm_true _ w l hs fs flags _ hh
        exact ⟨hb, ha, hm, hu⟩
  | draw tenpai flags s2 hh =>
    obtain ⟨-, -, -, -, -, -, hb, ha, hm, hu⟩ :=
      handleDrawConfirm_eq _ tenpai flags _ hh
    exact ⟨hb, ha, hm, hu⟩

/-- C8: after a confirmed settlement, undo restores the seven core fields
to their pre-settlement values and sets isInUndo; redo then restores the
post-settlement values and clears isInUndo; undo or redo with no pending
pair leaves the state unchanged; and a second consecutive undo is a no-op
on the state value. -/
theorem undo_redo_spec :
    (∀ (prevS s' : GameState), SettleStep prevS s' →
      ((handleUndoLastSettlement s').points = prevS.points
        ∧ (handleUndoLastSettlement s').kyotaku = prevS.kyotaku
        ∧ (handleUndoLastSettlement s').honba = prevS.honba
        ∧ (handleUndoLastSettlement s').kyokuIndex = prevS.kyokuIndex
        ∧ (handleUndoLastSettlement s').dealerIndex = prevS.dealerIndex
        ∧ (handleUndoLastSettlement s').history = prevS.history
        ∧ (handleUndoLastSettlement s').names = prevS.names
        ∧ (handleUndoLastSettlement s').isInUndo = true)
      ∧ ((handleRedoLastSettlement (handleUndoLastSettlement s')).points = s'.points
        ∧ (handleRedoLastSettlement (handleUndoLastSettlement s')).kyotaku = s'.kyotaku
        ∧ (handleRedoLastSettlement (handleUndoLastSettlement s')).honba = s'.honba
        ∧ (handleRedoLastSettlement (handleUndoLastSettlement s')).kyokuIndex = s'.kyokuIndex
        ∧ (handleRedoLastSettlement (handleUndoLastSettlement s')).dealerIndex = s'.dealerIndex
        ∧ (handleRedoLastSettlement (handleUndoLastSettlement s')).history = s'.history
        ∧ (handleRedoLastSettlement (handleUndoLastSettlement s')).names = s'.names
        ∧ (handleRedoLastSettlement (handleUndoLastSettlement s')).isInUndo = false)
      ∧ handleUndoLastSettlement (handleUndoLastSettlement s')
          = handleUndoLastSettlement s')
    ∧ (∀ s : GameState,
        s.lastSettlementBefore = none ∨ s.lastSettlementAfter = none
          ∨ s.lastSettlementMeta = none →
        handleUndoLastSettlement s = s ∧ handleRedoLastSettlement s = s) := by
  constructor
  · intro prevS s' hstep
    obtain ⟨hb, ha, ⟨m, hm⟩, hu⟩ := settleStep_facts prevS s' hstep
    refine ⟨?_, ?_, ?_⟩
    · rw [undo_eq s' _ _ m hb ha hm]
      exact ⟨rfl, rfl, rfl, rfl, rfl, rfl, rfl, rfl⟩
    · rw [redo_undo s' _ _ m hb ha hm]
      exact ⟨rfl, rfl, rfl, rfl, rfl, rfl, rfl, rfl⟩
    · rw [undo_eq s' _ _ m hb ha hm]
      exact undo_eq _ _ _ m hb ha hm
  · intro s hnone
    cases hB : s.lastSettlementBefore <;> cases hA : s.lastSettlementAfter <;>
      cases hM : s.lastSettlementMeta <;>
      constructor <;>
      simp_all [handleUndoLastSettlement, handleRedoLastSettlement]

/-- The state after one confirmed draw settlement from the initial state
(all four seats noten, no riichi). -/
def drawOnceState : GameState :=
  (handleDrawConfirm createInitialGameState (fun _ => false) (fun _ => false)).2

/-- Witness for undo_redo_spec: undoing the first settlement restores the
initial core fields, and redo restores the advanced honba. -/
theorem undo_redo_spec_witness :
    (handleUndoLastSettlement drawOnceState).honba = 0
    ∧ (handleUndoLastSettlement drawOnceState).points 0 = 25000
    ∧ (handleUndoLastSettlement drawOnceState).isInUndo = true
    ∧ (handleRedoLastSettlement (handleUndoLastSettlement drawOnceState)).honba = 1 := by
  have h := undo_redo_spec.1 createInitialGameState drawOnceState
    (SettleStep.draw createInitialGameState (fun _ => false) (fun _ => false)
      drawOnceState rfl)
  refine ⟨?_, ?_, ?_, ?_⟩
  · rw [h.1.2.2.1]; rfl
  · rw [h.1.1]; rfl
  · exact h.1.2.2.2.2.2.2.2
  · rw [h.2.1.2.2.1]; decide

/-! ## C10: loading persisted state (App.tsx lines 549-581)

The persisted document is the result of JSON.parse plus JS property
access, so every field of the stored object is an arbitrary JSON value
(or undefined when the property is missing).  The load path performs its
own shape checks and fallbacks, and — critically — does NOT re-type the
fields it passes through: an accepted document's points array is
installed as-is, whatever its elements are, and a non-nullish isInUndo of
the wrong type is kept.  The loaded state is therefore modelled at the
JS-honest types (LoadedState), not at the TS-declared types. -/

/-- A JSON value as seen after JSON.parse, plus undefined for a missing
property. -/
inductive JVal where
  | jnum (n : Int)
  | jstr (s : String)
  | jbool (b : Bool)
  | jarr (elems : List JVal)
  | jnull
  | jundef

/-- The parsed persisted document: the eleven properties the load path
reads (each possibly of the wrong type or missing). -/
structure StoredDoc where
  points : JVal
  kyotaku : JVal
  honba : JVal
  kyokuIndex : JVal
  dealerIndex : JVal
  history : JVal
  names : JVal
  lastSettlementBefore : JVal
  lastSettlementAfter : JVal
  lastSettlementMeta : JVal
  isInUndo : JVal

/-- JS nullish test (null or undefined). -/
def jsNullish : JVal → Bool
  | .jnull => true
  | .jundef => true
  | _ => false

/-- The JS nullish-coalescing operator v ?? fallback. -/
def jsCoalesce (v fallback : JVal) : JVal :=
  if jsNullish v then fallback else v

/-- sanitizeNames from App.tsx lines 127-134, at the JS input type. -/
def sanitizeNamesJS (input : JVal) : List String :=
  match input with
  | .jarr xs =>
    if xs.length = 4 then
      xs.mapIdx (fun index v =>
        match v with
        | .jstr s => if s.trim.length > 0 then s.trim else PLAYER_LABELS.getD index ""
        | _ => PLAYER_LABELS.getD index "")
    else PLAYER_LABELS
  | _ => PLAYER_LABELS

/-- ensureSeatIndex from App.tsx lines 478-480 at the raw JS number type
used on load: value % 4 with the JS remainder (sign of the dividend,
hence negative for negative stored values). -/
def ensureSeatIndexJS (value : Int) : Int :=
  Int.tmod value 4

/-- The in-memory state fields the load path can overwrite, at JS-honest
types. -/
structure LoadedState where
  points : List JVal
  kyotaku : Int
  honba : Int
  kyokuIndex : Int
  dealerIndex : Int
  history : List JVal
  names : List String
  lastSettlementBefore : JVal
  lastSettlementAfter : JVal
  lastSettlementMeta : JVal
  isInUndo : JVal

/-- The initial in-memory state, at the LoadedState types. -/
def initialLoadedState : LoadedState where
  points := [.jnum 25000, .jnum 25000, .jnum 25000, .jnum 25000]
  kyotaku := 0
  honba := 0
  kyokuIndex := 0
  dealerIndex := 0
  history := []
  names := PLAYER_LABELS
  lastSettlementBefore := .jnull
  lastSettlementAfter := .jnull
  lastSettlementMeta := .jnull
  isInUndo := .jbool false

/-- The load effect from App.tsx lines 549-581.  none models a missing
stored item, a JSON.parse failure, or a falsy/non-object parse result —
all of which keep the previous in-memory state.  For a parsed object the
source accepts it when points is an array of length 4 and
honba/kyokuIndex/dealerIndex are numbers, then builds the state with the
per-field fallbacks; otherwise the previous state is kept. -/
def loadState (parsed : Option StoredDoc) (prev : LoadedState) : LoadedState :=
  match parsed with
  | none => prev
  | some p =>
    match p.points with
    | .jarr pts =>
      if pts.length = 4 then
        match p.honba, p.kyokuIndex, p.dealerIndex with
        | .jnum honba, .jnum kyokuIndex, .jnum dealerIndex =>
          { points := pts
            kyotaku := (match p.kyotaku with | .jnum n => n | _ => 0)
            honba := honba
            kyokuIndex := kyokuIndex
            dealerIndex := ensureSeatIndexJS dealerIndex
            history := (match p.history with | .jarr hs => hs | _ => [])
            names := sanitizeNamesJS p.names
            lastSettlementBefore := jsCoalesce p.lastSettlementBefore .jnull
            lastSettlementAfter := jsCoalesce p.lastSettlementAfter .jnull
            lastSettlementMeta := jsCoalesce p.lastSettlementMeta .jnull
            isInUndo := jsCoalesce p.isInUndo (.jbool false) }
        | _, _, _ => prev
      else prev
    | _ => prev

/-- A stored document exhibiting the gap between claim and code: points
is a 4-element array of strings (accepted anyway), dealerIndex is -1 (a
number, accepted, and kept negative by the JS remainder), and isInUndo is
an invalid non-nullish value (kept as-is). -/
def storedDocCex : StoredDoc where
  points := .jarr [.jstr "a", .jstr "b", .jstr "c", .jstr "d"]
  kyotaku := .jundef
  honba := .jnum 0
  kyokuIndex := .jnum 0
  dealerIndex := .jnum (-1)
  history := .jundef
  names := .jundef
  lastSettlementBefore := .jundef
  lastSettlementAfter := .jundef
  lastSettlementMeta := .jundef
  isInUndo := .jstr "yes"

/-- C10 counterexample: the claim fails on the code.  storedDocCex is
accepted and installed although its points array is not numeric, the
resulting dealerIndex is -1 — outside the seat range 0..3 — and the
invalid isInUndo value is kept rather than replaced by false. -/
theorem load_state_cex :
    (loadState (some storedDocCex) initialLoadedState).points
      = [JVal.jstr "a", JVal.jstr "b", JVal.jstr "c", JVal.jstr "d"]
    ∧ (loadState (some storedDocCex) initialLoadedState).dealerIndex = -1
    ∧ ¬(0 ≤ (loadState (some storedDocCex) initialLoadedState).dealerIndex
        ∧ (loadState (some storedDocCex) initialLoadedState).dealerIndex ≤ 3)
    ∧ (loadState (some storedDocCex) initialLoadedState).isInUndo
      = JVal.jstr "yes"
    ∧ (loadState (some storedDocCex) initialLoadedState).points
        ≠ initialLoadedState.points := by
  refine ⟨rfl, rfl, by decide, rfl, ?_⟩
  intro hEq
  rw [show (loadState (some storedDocCex) initialLoadedState).points
      = [JVal.jstr "a", JVal.jstr "b", JVal.jstr "c", JVal.jstr "d"] from rfl,
    show initialLoadedState.points
      = [JVal.jnum 25000, JVal.jnum 25000, JVal.jnum 25000, JVal.jnum 25000]
      from rfl] at hEq
  exact absurd hEq (by simp)

/-- C10 (amended): a stored document is accepted exactly when points is a
4-element array (element types unchecked) and honba/kyokuIndex/dealerIndex
are numbers; an accepted document installs its fields with dealerIndex
reduced by the JS remainder % 4 (inside 0..3 whenever the stored value is
non-negative), kyotaku falling back to 0 and history to [] on a type
mismatch, names sanitized, and the undo fields replaced by null/false
only when nullish; a missing or malformed document keeps the previous
state (load never hard-fails). -/
theorem load_state_spec :
    (∀ prev : LoadedState, loadState none prev = prev)
    ∧ (∀ (p : StoredDoc) (prev : LoadedState) (pts : List JVal) (h k d : Int),
        p.points = JVal.jarr pts → pts.length = 4 →
        p.honba = JVal.jnum h → p.kyokuIndex = JVal.jnum k →
        p.dealerIndex = JVal.jnum d →
        loadState (some p) prev =
          { points := pts
            kyotaku := (match p.kyotaku with | JVal.jnum n => n | _ => 0)
            honba := h
            kyokuIndex := k
            dealerIndex := Int.tmod d 4
            history := (match p.history with | JVal.jarr hs => hs | _ => [])
            names := sanitizeNamesJS p.names
            lastSettlementBefore := jsCoalesce p.lastSettlementBefore JVal.jnull
            lastSettlementAfter := jsCoalesce p.lastSettlementAfter JVal.jnull
            lastSettlementMeta := jsCoalesce p.lastSettlementMeta JVal.jnull
            isInUndo := jsCoalesce p.isInUndo (JVal.jbool false) }
          ∧ (0 ≤ d → 0 ≤ Int.tmod d 4 ∧ Int.tmod d 4 < 4))
    ∧ (∀ (p : StoredDoc) (prev : LoadedState),
        ((∀ pts, p.points ≠ JVal.jarr pts ∨ pts.length ≠ 4)
          ∨ (∀ h : Int, p.honba ≠ JVal.jnum h)
          ∨ (∀ k : Int, p.kyokuIndex ≠ JVal.jnum k)
          ∨ (∀ d : Int, p.dealerIndex ≠ JVal.jnum d)) →
        loadState (some p) prev = prev) := by
  refine ⟨fun prev => rfl, ?_, ?_⟩
  · intro p prev pts h k d hpts hlen hh hk hd
    obtain ⟨pp, pk, ph, pki, pd, phist, pn, pb, pa, pm, pu⟩ := p
    dsimp only at hpts hh hk hd ⊢
    subst hpts hh hk hd
    constructor
    · unfold loadState
      dsimp only
      rw [if_pos hlen]
      rfl
    · intro hd0
      rw [Int.tmod_eq_emod hd0 (by norm_num)]
      omega
  · intro p prev hbad
    obtain ⟨pp, pk, ph, pki, pd, phist, pn, pb, pa, pm, pu⟩ := p
    dsimp only at hbad ⊢
    unfold loadState
    dsimp only
    cases pp <;> try rfl
    rename_i pts
    dsimp only
    by_cases hlen : pts.length = 4
    · rw [if_pos hlen]
      cases ph <;> cases pki <;> cases pd <;> try rfl
      exfalso
      rcases hbad with hb | hb | hb | hb
      · rcases hb pts with hb' | hb'
        · exact hb' rfl
        · exact hb' hlen
      · exact hb _ rfl
      · exact hb _ rfl
      · exact hb _ rfl
    · rw [if_neg hlen]

/-- Witness for load_state_spec: a well-formed document with dealer seat
6 loads with dealerIndex 6 % 4 = 2, and a missing document keeps the
previous state. -/
theorem load_state_spec_witness :
    loadState
      (some { points := .jarr [.jnum 1, .jnum 2, .jnum 3, .jnum 4],
              kyotaku := .jnum 2, honba := .jnum 1, kyokuIndex := .jnum 5,
              dealerIndex := .jnum 6, history := .jundef, names := .jundef,
              lastSettlementBefore := .jundef, lastSettlementAfter := .jundef,
              lastSettlementMeta := .jundef, isInUndo := .jundef })
      initialLoadedState
    = { points := [.jnum 1, .jnum 2, .jnum 3, .jnum 4], kyotaku := 2,
        honba := 1, kyokuIndex := 5, dealerIndex := 2, history := [],
        names := PLAYER_LABELS, lastSettlementBefore := .jnull,
        lastSettlementAfter := .jnull, lastSettlementMeta := .jnull,
        isInUndo := .jbool false }
    ∧ loadState none initialLoadedState = initialLoadedState := by
  constructor
  · rw [(load_state_spec.2.1 _ initialLoadedState
      [.jnum 1, .jnum 2, .jnum 3, .jnum 4] 1 5 6 rfl rfl rfl rfl rfl).1]
    rfl
  · exact load_state_spec.1 initialLoadedState

end Riichi
